import Mathlib

set_option autoImplicit false

namespace FirecrawlLite

/-!
Shallow embedding of the tool-invocation dispatcher of
`firecrawl-lite-mcp-server` (`src/index.ts`).

The dispatcher (`callToolRequestHandler`) receives `{name, arguments}`,
runs a per-tool guard, calls the external Firecrawl client
(`client.scrape` / `client.extract`), and wraps outcomes in a result
envelope `{content: [{type, text}], isError}`.  The external client and
the JS builtin `JSON.stringify` are modelled explicitly; JS truthiness
of argument values is modelled by `jsTruthy`.  Side effects that matter
to the claims (scrape attempts, extract attempts, inserted delays) are
recorded in an event trace returned alongside the envelope.
-/

/-- JSON-compatible argument values, as passed in `request.params.arguments`. -/
inductive JVal where
  | null
  | bool (b : Bool)
  | num (n : Int)
  | str (s : String)
  | arr (xs : List JVal)
  | obj (fields : List (String × JVal))

/-- An arguments object: named parameters mapped to JSON values. -/
abbrev JObj := List (String × JVal)

/-- Field lookup in an arguments object (first occurrence wins). -/
def jLookup : JObj → String → Option JVal
  | [], _ => none
  | (k, v) :: rest, key => if k = key then some v else jLookup rest key

/-- JS truthiness of a JSON value (`!x` in the source is `¬ jsTruthy x`). -/
def jsTruthy : JVal → Bool
  | .null => false
  | .bool b => b
  | .num n => n != 0
  | .str s => s != ""
  | .arr _ => true
  | .obj _ => true

/-- JS truthiness of a possibly-absent value (`undefined` is falsy). -/
def jsTruthyOpt : Option JVal → Bool
  | none => false
  | some v => jsTruthy v

/-- JS string-or-default: `a || d` where the empty string is falsy. -/
def jsStrOr (o : Option String) (d : String) : String :=
  match o with
  | some s => if s = "" then d else s
  | none => d

/-- Models `args.enableWebSearch as boolean || false`. -/
def jsOrFalse (o : Option JVal) : JVal :=
  match o with
  | some v => if jsTruthy v then v else .bool false
  | none => .bool false

/-- Models `args.onlyMainContent !== false` (the scrape-option default). -/
def jOnlyMainContent (a : JObj) : Bool :=
  match jLookup a "onlyMainContent" with
  | some (.bool false) => false
  | _ => true

/-- Models `trimResponseText` from the source, which calls the JS builtin
`text.trim()`: remove leading and trailing whitespace. -/
def trimResponseText (text : String) : String :=
  String.mk (((text.toList.dropWhile Char.isWhitespace).reverse.dropWhile Char.isWhitespace).reverse)

/-- Response shape of `client.scrape`: optional `markdown` and `html` fields. -/
structure ScrapeResponse where
  markdown : Option String
  html : Option String

/-- Argument object passed to `client.extract` by the two extract tools. -/
structure ExtractReq where
  urls : List JVal
  prompt : Option JVal
  schema : Option JVal
  webSearch : JVal

/-- The external Firecrawl client: `scrape` and `extract` either return a
response or throw (modelled by `Except`, the error being the thrown message). -/
structure FirecrawlClient where
  scrape : JVal → Bool → Except String ScrapeResponse
  extract : ExtractReq → Except String JVal

/-- One content block of a result envelope; the dispatcher only ever builds text blocks. -/
inductive ContentBlock where
  | text (s : String)

/-- The result envelope `{content, isError}` returned for every tool call. -/
structure CallToolResult where
  content : List ContentBlock
  isError : Bool

/-- Externally observable effects of one dispatch: scrape attempts, extract
attempts, and inserted delays (milliseconds). -/
inductive Event where
  | scrapeCall (url : JVal) (onlyMainContent : Bool)
  | extractCall (req : ExtractReq)
  | delayEv (ms : Nat)

/-- True exactly on scrape-attempt events. -/
def Event.isScrape : Event → Bool
  | .scrapeCall _ _ => true
  | _ => false

/-- True exactly on delay events. -/
def Event.isDelay : Event → Bool
  | .delayEv _ => true
  | _ => false

/-- Deployment environment: `CLOUD_SERVICE === 'true'`, the startup
`FIRECRAWL_API_KEY`, and the per-request `request.params._meta.apiKey`. -/
structure Env where
  cloudService : Bool
  envApiKey : Option String
  metaApiKey : Option String

/-- Models the apiKey resolution at the top of `callToolRequestHandler`. -/
def resolveApiKey (env : Env) : Option String :=
  if env.cloudService then env.metaApiKey else env.envApiKey

/-- JS falsiness of a possibly-absent string (`!apiKey`). -/
def jsStrFalsy : Option String → Bool
  | none => true
  | some s => s.isEmpty

/-- One record pushed per URL by the `batch_scrape` loop: on success
`{url, success: true, content}`, on a caught error `{url, success: false, error}`. -/
structure BatchRecord where
  url : JVal
  success : Bool
  content : Option String
  error : Option String

/-- Body of one `batch_scrape` loop iteration: try `client.scrape`,
push a success record with `response.markdown || response.html || 'No content found'`,
or catch and push a failure record carrying the error message. -/
def recordFor (client : FirecrawlClient) (omc : Bool) (u : JVal) : BatchRecord :=
  match client.scrape u omc with
  | .ok resp => ⟨u, true, some (jsStrOr resp.markdown (jsStrOr resp.html "No content found")), none⟩
  | .error e => ⟨u, false, none, some e⟩

/-- JSON shape of a batch record as built by the source (`{url, success, content}`
on success, `{url, success, error}` on failure). -/
def recordToJVal (r : BatchRecord) : JVal :=
  if r.success then
    .obj [("url", r.url), ("success", .bool true), ("content", .str (r.content.getD ""))]
  else
    .obj [("url", r.url), ("success", .bool false), ("error", .str (r.error.getD ""))]

/-- The `for (const url of args.urls)` loop of `batch_scrape`: strictly
sequential, one record per URL, `await delay(200)` after each URL. -/
def batchLoop (client : FirecrawlClient) (omc : Bool) : List JVal → List BatchRecord × List Event
  | [] => ([], [])
  | u :: rest =>
      let r := recordFor client omc u
      let tail := batchLoop client omc rest
      (r :: tail.1, Event.scrapeCall u omc :: Event.delayEv 200 :: tail.2)

/-- Expected trace of the batch loop: one scrape attempt then a 200 ms
delay per URL, in input order. -/
def batchTrace (omc : Bool) : List JVal → List Event
  | [] => []
  | u :: rest => Event.scrapeCall u omc :: Event.delayEv 200 :: batchTrace omc rest

/-- Escape of one character inside a JSON string literal. -/
def escapeJsonChar (c : Char) : String :=
  if c = '"' then "\\\""
  else if c = '\\' then "\\\\"
  else if c = '\n' then "\\n"
  else if c = '\r' then "\\r"
  else if c = '\t' then "\\t"
  else String.singleton c

/-- Quoted JSON string literal. -/
def jsonQuote (s : String) : String :=
  "\"" ++ String.join (s.toList.map escapeJsonChar) ++ "\""

/-- Indentation padding of `n` spaces. -/
def padSpaces (n : Nat) : String := String.mk (List.replicate n ' ')

mutual

/-- Models the JS builtin `JSON.stringify(v, null, 2)` at nesting depth `d`. -/
def jsonStringify (d : Nat) : JVal → String
  | .null => "null"
  | .bool true => "true"
  | .bool false => "false"
  | .num n => toString n
  | .str s => jsonQuote s
  | .arr [] => "[]"
  | .arr (x :: xs) =>
      "[\n" ++ String.intercalate ",\n" (jsonStringifyItems (d + 1) (x :: xs)) ++
        "\n" ++ padSpaces (d * 2) ++ "]"
  | .obj [] => "\x7b\x7d"
  | .obj (f :: fs) =>
      "\x7b\n" ++ String.intercalate ",\n" (jsonStringifyFields (d + 1) (f :: fs)) ++
        "\n" ++ padSpaces (d * 2) ++ "\x7d"

/-- Array elements, each on its own indented line. -/
def jsonStringifyItems (d : Nat) : List JVal → List String
  | [] => []
  | x :: xs => (padSpaces (d * 2) ++ jsonStringify d x) :: jsonStringifyItems d xs

/-- Object fields, each on its own indented line. -/
def jsonStringifyFields (d : Nat) : List (String × JVal) → List String
  | [] => []
  | (k, v) :: fs =>
      (padSpaces (d * 2) ++ jsonQuote k ++ ": " ++ jsonStringify d v) :: jsonStringifyFields d fs

end

/-- The `switch (name)` of `callToolRequestHandler`: per-tool guard, the
tool body, or the `default` branch.  `Except.error` models a thrown fault
escaping to the top-level catch; the event list records external effects
that happened before the return or throw. -/
def dispatch (client : FirecrawlClient) (name : String) (a : JObj) :
    Except String CallToolResult × List Event :=
  if name = "scrape_page" then
    match jLookup a "url" with
    | some (JVal.str u) =>
        match client.scrape (JVal.str u) (jOnlyMainContent a) with
        | .ok resp =>
            (.ok ⟨[ContentBlock.text (jsStrOr resp.markdown (jsStrOr resp.html "No content found"))],
                  false⟩,
             [Event.scrapeCall (JVal.str u) (jOnlyMainContent a)])
        | .error e => (.error e, [Event.scrapeCall (JVal.str u) (jOnlyMainContent a)])
    | _ => (.error "Invalid arguments for scrape_page", [])
  else if name = "batch_scrape" then
    match jLookup a "urls" with
    | some (JVal.arr urls) =>
        if urls.isEmpty then
          (.error "Invalid arguments for batch_scrape: urls array required", [])
        else
          (.ok ⟨[ContentBlock.text (jsonStringify 0
              (JVal.arr ((batchLoop client (jOnlyMainContent a) urls).1.map recordToJVal)))],
            false⟩,
           (batchLoop client (jOnlyMainContent a) urls).2)
    | _ => (.error "Invalid arguments for batch_scrape: urls array required", [])
  else if name = "extract_data" then
    match jLookup a "urls" with
    | some (JVal.arr urls) =>
        if urls.isEmpty || !(jsTruthyOpt (jLookup a "prompt")) then
          (.error "Invalid arguments for extract_data: urls array and prompt required", [])
        else
          match client.extract ⟨urls, jLookup a "prompt", none, jsOrFalse (jLookup a "enableWebSearch")⟩ with
          | .ok resp =>
              (.ok ⟨[ContentBlock.text (jsonStringify 0 resp)], false⟩,
               [Event.extractCall ⟨urls, jLookup a "prompt", none, jsOrFalse (jLookup a "enableWebSearch")⟩])
          | .error e =>
              (.error e,
               [Event.extractCall ⟨urls, jLookup a "prompt", none, jsOrFalse (jLookup a "enableWebSearch")⟩])
    | _ => (.error "Invalid arguments for extract_data: urls array and prompt required", [])
  else if name = "extract_with_schema" then
    match jLookup a "urls" with
    | some (JVal.arr urls) =>
        if urls.isEmpty || !(jsTruthyOpt (jLookup a "schema")) then
          (.error "Invalid arguments for extract_with_schema: urls array and schema required", [])
        else
          match client.extract
              ⟨urls, jLookup a "prompt", jLookup a "schema", jsOrFalse (jLookup a "enableWebSearch")⟩ with
          | .ok resp =>
              (.ok ⟨[ContentBlock.text (jsonStringify 0 resp)], false⟩,
               [Event.extractCall
                 ⟨urls, jLookup a "prompt", jLookup a "schema", jsOrFalse (jLookup a "enableWebSearch")⟩])
          | .error e =>
              (.error e,
               [Event.extractCall
                 ⟨urls, jLookup a "prompt", jLookup a "schema", jsOrFalse (jLookup a "enableWebSearch")⟩])
    | _ => (.error "Invalid arguments for extract_with_schema: urls array and schema required", [])
  else
    (.ok ⟨[ContentBlock.text ("Unknown tool: " ++ name)], true⟩, [])

/-- The body of the top-level `try`: cloud API-key precheck, the
`if (!args) throw` guard, then the dispatch switch. -/
def toolPipeline (env : Env) (client : FirecrawlClient) (name : String) (args : Option JObj) :
    Except String CallToolResult × List Event :=
  if env.cloudService && jsStrFalsy (resolveApiKey env) then
    (.error "No API key provided", [])
  else
    match args with
    | none => (.error "No arguments provided", [])
    | some a => dispatch client name a

/-- The whole `callToolRequestHandler`: run the pipeline; a thrown fault is
caught and converted into `{content: [text ("Error: " + message).trim()], isError: true}`. -/
def handleCallTool (env : Env) (client : FirecrawlClient) (name : String) (args : Option JObj) :
    CallToolResult × List Event :=
  match toolPipeline env client name args with
  | (.ok r, tr) => (r, tr)
  | (.error e, tr) => (⟨[ContentBlock.text (trimResponseText ("Error: " ++ e))], true⟩, tr)

/-! Retry helper (`withRetry`) and its configuration (`CONFIG.retry`). -/

/-- The `CONFIG.retry` record. -/
structure RetryConfig where
  maxAttempts : Nat
  initialDelay : Nat
  maxDelay : Nat
  backoffFactor : Nat

/-- Models `Number(process.env.X) || default`: an absent variable (and the
falsy parse results `0`/`NaN`) fall back to the default. -/
def numOr (o : Option Nat) (d : Nat) : Nat :=
  match o with
  | some v => if v = 0 then d else v
  | none => d

/-- The `CONFIG.retry` initializer, from the four retry environment variables. -/
def retryConfigOf (maxAttempts initialDelay maxDelay backoffFactor : Option Nat) : RetryConfig :=
  ⟨numOr maxAttempts 3, numOr initialDelay 1000, numOr maxDelay 10000, numOr backoffFactor 2⟩

/-- Test whether `pat` is a prefix of a character list. -/
def charsPrefix : List Char → List Char → Bool
  | [], _ => true
  | _ :: _, [] => false
  | c :: cs, d :: ds => c == d && charsPrefix cs ds

/-- Test whether `pat` occurs anywhere inside a character list. -/
def charsInfix (pat : List Char) : List Char → Bool
  | [] => pat.isEmpty
  | c :: cs => charsPrefix pat (c :: cs) || charsInfix pat cs

/-- Models the JS builtin `s.includes(pat)`. -/
def strIncludes (s pat : String) : Bool :=
  charsInfix pat.toList s.toList

/-- The rate-limit test of `withRetry`: the thrown message contains
`rate limit` or `429`. -/
def isRateLimitMsg (e : String) : Bool :=
  strIncludes e "rate limit" || strIncludes e "429"

/-- The `withRetry` helper: run the operation; on a rate-limit-flavored
error with attempts remaining, wait `min(initialDelay * backoffFactor ^ (attempt - 1), maxDelay)`
and recurse with `attempt + 1`; otherwise rethrow.  The operation is
modelled as a function of the attempt number; the second component
collects the backoff delays actually waited. -/
def withRetry {T : Type} (cfg : RetryConfig) (op : Nat → Except String T) (attempt : Nat) :
    Except String T × List Nat :=
  match op attempt with
  | .ok v => (.ok v, [])
  | .error e =>
      if h : isRateLimitMsg e = true ∧ attempt < cfg.maxAttempts then
        let delayMs := min (cfg.initialDelay * cfg.backoffFactor ^ (attempt - 1)) cfg.maxDelay
        let rest := withRetry cfg op (attempt + 1)
        (rest.1, delayMs :: rest.2)
      else (.error e, [])
termination_by cfg.maxAttempts - attempt
decreasing_by omega

/-! Tool registry (`listToolsRequestHandler`). -/

/-- One property of a tool input schema (name and declared JSON type). -/
structure PropSchema where
  name : String
  type : String

/-- A tool input schema: object type, properties, and the required list. -/
structure InputSchema where
  type : String
  properties : List PropSchema
  required : List String

/-- One tool definition of the registry. -/
structure ToolDef where
  name : String
  description : String
  inputSchema : InputSchema

/-- `SCRAPE_TOOL`. -/
def SCRAPE_TOOL : ToolDef :=
  ⟨"scrape_page", "Extract content from a single webpage",
   ⟨"object", [⟨"url", "string"⟩, ⟨"onlyMainContent", "boolean"⟩], ["url"]⟩⟩

/-- `BATCH_SCRAPE_TOOL`. -/
def BATCH_SCRAPE_TOOL : ToolDef :=
  ⟨"batch_scrape", "Scrape multiple URLs in a single request",
   ⟨"object", [⟨"urls", "array"⟩, ⟨"onlyMainContent", "boolean"⟩], ["urls"]⟩⟩

/-- `EXTRACT_DATA_TOOL`. -/
def EXTRACT_DATA_TOOL : ToolDef :=
  ⟨"extract_data", "Extract structured data from webpages using LLM",
   ⟨"object", [⟨"urls", "array"⟩, ⟨"prompt", "string"⟩, ⟨"enableWebSearch", "boolean"⟩],
    ["urls", "prompt"]⟩⟩

/-- `EXTRACT_WITH_SCHEMA_TOOL`. -/
def EXTRACT_WITH_SCHEMA_TOOL : ToolDef :=
  ⟨"extract_with_schema", "Extract structured data using a JSON schema",
   ⟨"object",
    [⟨"urls", "array"⟩, ⟨"schema", "object"⟩, ⟨"prompt", "string"⟩, ⟨"enableWebSearch", "boolean"⟩],
    ["urls", "schema"]⟩⟩

/-- `listToolsRequestHandler`: the fixed tool list, in declaration order. -/
def listToolsRequestHandler : List ToolDef :=
  [SCRAPE_TOOL, BATCH_SCRAPE_TOOL, EXTRACT_DATA_TOOL, EXTRACT_WITH_SCHEMA_TOOL]

/-! Session-tracked HTTP transport (`runHTTPStreamableServer`, the `/mcp` handler). -/

/-- The parts of an incoming HTTP request that the `/mcp` handler inspects:
the `mcp-session-id` header, the method, and whether the parsed body is an
object whose `method` field names the JSON-RPC method. -/
structure McpRequest where
  sessionId : Option String
  methodIsPost : Bool
  bodyIsObject : Bool
  bodyMethod : Option String

/-- JS truthiness of the session header (`sessionId &&` — absent or empty is falsy). -/
def sessionHeaderTruthy (r : McpRequest) : Bool :=
  match r.sessionId with
  | some s => !s.isEmpty
  | none => false

/-- Outcome of one `/mcp` request: routed to an existing transport, a new
transport created and registered under a fresh session id, or rejected with
an HTTP status and JSON-RPC error code before any dispatch happens. -/
inductive McpOutcome where
  | routedTo (sid : String)
  | initialized (newSid : String)
  | rejected (status : Nat) (code : Int)

/-- The `/mcp` request handler branch structure.  `sessions` is the key set
of the `transports` map; `fresh` models the `randomUUID()` the new transport
registers via `onsessioninitialized`.  Returns the outcome and the updated
session key set. -/
def handleMcpRequest (sessions : List String) (fresh : String) (r : McpRequest) :
    McpOutcome × List String :=
  if sessionHeaderTruthy r && sessions.contains (r.sessionId.getD "") then
    (.routedTo (r.sessionId.getD ""), sessions)
  else if !(sessionHeaderTruthy r) && r.methodIsPost && r.bodyIsObject &&
      (r.bodyMethod == some "initialize") then
    (.initialized fresh, fresh :: sessions)
  else
    (.rejected 400 (-32000), sessions)

/-! Helper lemmas about the batch loop and the dispatcher. -/

/-- The records the batch loop collects are exactly one `recordFor` per URL. -/
lemma batchLoop_records (client : FirecrawlClient) (omc : Bool) :
    ∀ urls : List JVal, (batchLoop client omc urls).1 = urls.map (recordFor client omc)
  | [] => rfl
  | u :: rest => by
      simp [batchLoop, batchLoop_records client omc rest]

/-- The batch loop trace is one scrape attempt then a 200 ms delay per URL, in order. -/
lemma batchLoop_trace (client : FirecrawlClient) (omc : Bool) :
    ∀ urls : List JVal, (batchLoop client omc urls).2 = batchTrace omc urls
  | [] => rfl
  | u :: rest => by
      simp [batchLoop, batchTrace, batchLoop_trace client omc rest]

/-- A non-empty list is not `isEmpty`. -/
lemma isEmpty_false_of_ne_nil {α : Type} {l : List α} (h : l ≠ []) : l.isEmpty = false := by
  cases l with
  | nil => exact absurd rfl h
  | cons x xs => rfl

/-- Full evaluation of a guard-passing `batch_scrape` invocation: the
envelope is the pretty-printed record list with `isError = false`, and the
trace is the sequential per-URL scrape/delay trace. -/
lemma handle_batch_eq (env : Env) (client : FirecrawlClient) (a : JObj) (urls : List JVal)
    (hkey : (env.cloudService && jsStrFalsy (resolveApiKey env)) = false)
    (hurls : jLookup a "urls" = some (JVal.arr urls))
    (hne : urls ≠ []) :
    handleCallTool env client "batch_scrape" (some a) =
      (⟨[ContentBlock.text (jsonStringify 0
            (JVal.arr ((urls.map (recordFor client (jOnlyMainContent a))).map recordToJVal)))],
        false⟩,
       batchTrace (jOnlyMainContent a) urls) := by
  have hempty : urls.isEmpty = false := isEmpty_false_of_ne_nil hne
  unfold handleCallTool toolPipeline dispatch
  simp [hkey, hurls, hempty, batchLoop_records, batchLoop_trace]

/-- Trace of a guard-passing `extract_data` invocation: exactly one call to
`client.extract`, whatever its outcome. -/
lemma handle_extract_data_trace (env : Env) (client : FirecrawlClient) (a : JObj)
    (urls : List JVal)
    (hkey : (env.cloudService && jsStrFalsy (resolveApiKey env)) = false)
    (hurls : jLookup a "urls" = some (JVal.arr urls))
    (hne : urls ≠ [])
    (hprompt : jsTruthyOpt (jLookup a "prompt") = true) :
    (handleCallTool env client "extract_data" (some a)).2 =
      [Event.extractCall ⟨urls, jLookup a "prompt", none, jsOrFalse (jLookup a "enableWebSearch")⟩] := by
  have hempty : urls.isEmpty = false := isEmpty_false_of_ne_nil hne
  unfold handleCallTool toolPipeline dispatch
  rcases hex : client.extract ⟨urls, jLookup a "prompt", none, jsOrFalse (jLookup a "enableWebSearch")⟩ with
    v | e <;> simp [hkey, hurls, hempty, hprompt, hex]

/-- Trace of a guard-passing `extract_with_schema` invocation: exactly one
call to `client.extract`, whatever its outcome. -/
lemma handle_extract_schema_trace (env : Env) (client : FirecrawlClient) (a : JObj)
    (urls : List JVal)
    (hkey : (env.cloudService && jsStrFalsy (resolveApiKey env)) = false)
    (hurls : jLookup a "urls" = some (JVal.arr urls))
    (hne : urls ≠ [])
    (hschema : jsTruthyOpt (jLookup a "schema") = true) :
    (handleCallTool env client "extract_with_schema" (some a)).2 =
      [Event.extractCall
        ⟨urls, jLookup a "prompt", jLookup a "schema", jsOrFalse (jLookup a "enableWebSearch")⟩] := by
  have hempty : urls.isEmpty = false := isEmpty_false_of_ne_nil hne
  unfold handleCallTool toolPipeline dispatch
  rcases hex : client.extract
      ⟨urls, jLookup a "prompt", jLookup a "schema", jsOrFalse (jLookup a "enableWebSearch")⟩ with
    v | e <;> simp [hkey, hurls, hempty, hschema, hex]

/-! Concrete fixtures used by counterexamples and witnesses. -/

/-- Default local deployment: `CLOUD_SERVICE` unset, startup API key present. -/
def envDefault : Env := ⟨false, some "test-key", none⟩

/-- A client whose scrape and extract always succeed. -/
def clientOkAll : FirecrawlClient :=
  ⟨fun _ _ => .ok ⟨some "page content", none⟩, fun _ => .ok (JVal.str "extracted")⟩

/-- A client that throws on `ftp://x` and succeeds on every other URL. -/
def clientFtpFails : FirecrawlClient :=
  ⟨fun u _ =>
      match u with
      | JVal.str s =>
          if s = "ftp://x" then .error "Invalid URL format: ftp://x"
          else .ok ⟨some "page content", none⟩
      | _ => .ok ⟨some "page content", none⟩,
   fun _ => .ok (JVal.str "extracted")⟩

/-- A client whose scrape always throws. -/
def clientFailAll : FirecrawlClient :=
  ⟨fun _ _ => .error "net::ERR_CONNECTION_REFUSED", fun _ => .error "LLM unavailable"⟩

/-- A client whose scrape and extract always throw rate-limit-flavored errors. -/
def clientRateLimited : FirecrawlClient :=
  ⟨fun _ _ => .error "429 Too Many Requests", fun _ => .error "rate limit exceeded"⟩

/-- Eleven distinct URLs, one more than the ceiling the spec declares for batch scraping. -/
def urls11 : List JVal :=
  [JVal.str "https://u1.example", JVal.str "https://u2.example", JVal.str "https://u3.example",
   JVal.str "https://u4.example", JVal.str "https://u5.example", JVal.str "https://u6.example",
   JVal.str "https://u7.example", JVal.str "https://u8.example", JVal.str "https://u9.example",
   JVal.str "https://u10.example", JVal.str "https://u11.example"]

/-- The URL stored in a batch record is the URL the iteration processed. -/
lemma recordFor_url (client : FirecrawlClient) (omc : Bool) (u : JVal) :
    (recordFor client omc u).url = u := by
  unfold recordFor
  rcases h : client.scrape u omc with resp | e <;> simp [h]

/-- Every successful value the dispatch switch returns is an envelope with
exactly one text content block. -/
lemma dispatch_ok_shape (client : FirecrawlClient) (name : String) (a : JObj) :
    ∀ r, (dispatch client name a).1 = Except.ok r → ∃ s b, r = ⟨[ContentBlock.text s], b⟩ := by
  intro r h
  unfold dispatch at h
  repeat' split at h
  all_goals
    first
      | (subst h; exact ⟨_, _, rfl⟩)
      | (simp at h; subst h; exact ⟨_, _, rfl⟩)
      | (simp at h; exact ⟨_, _, h.symm⟩)
      | (simp at h)

/-- C3: every tool invocation, whatever the tool name, argument shape, or
error raised inside a handler, yields a result envelope made of exactly one
text content block plus the boolean `isError` flag; no exception escapes
`callToolRequestHandler` (in the model, `handleCallTool` is total and its
value always has this shape). -/
theorem c3_result_envelope_shape :
    ∀ (env : Env) (client : FirecrawlClient) (name : String) (args : Option JObj),
      ∃ s b, (handleCallTool env client name args).1 = ⟨[ContentBlock.text s], b⟩ := by
  intro env client name args
  unfold handleCallTool
  rcases hpipe : toolPipeline env client name args with ⟨x, tr⟩
  cases x with
  | error e => exact ⟨_, _, rfl⟩
  | ok r =>
      have hshape : ∃ s b, r = ⟨[ContentBlock.text s], b⟩ := by
        unfold toolPipeline at hpipe
        repeat' split at hpipe
        all_goals
          first
            | (simp at hpipe)
            | (exact dispatch_ok_shape client name _ r (by rw [hpipe]))
      obtain ⟨s, b, hr⟩ := hshape
      exact ⟨s, b, hr⟩

/-- C5: an invocation whose tool name is none of the registered tools yields
a normal result (the pipeline returns `ok` — nothing is thrown) with
`isError = true` and text exactly `Unknown tool: <name>`, provided arguments
are present and the cloud API-key precheck passes. -/
theorem c5_unknown_tool :
    ∀ (env : Env) (client : FirecrawlClient) (name : String) (a : JObj),
      (env.cloudService && jsStrFalsy (resolveApiKey env)) = false →
      name ≠ "scrape_page" → name ≠ "batch_scrape" → name ≠ "extract_data" →
      name ≠ "extract_with_schema" →
      toolPipeline env client name (some a) =
        (.ok ⟨[ContentBlock.text ("Unknown tool: " ++ name)], true⟩, []) ∧
      handleCallTool env client name (some a) =
        (⟨[ContentBlock.text ("Unknown tool: " ++ name)], true⟩, []) := by
  intro env client name a hkey h1 h2 h3 h4
  have hp : toolPipeline env client name (some a) =
      (.ok ⟨[ContentBlock.text ("Unknown tool: " ++ name)], true⟩, []) := by
    unfold toolPipeline dispatch
    simp [hkey, h1, h2, h3, h4]
  refine ⟨hp, ?_⟩
  unfold handleCallTool
  rw [hp]

/-- C5 witness: calling the unregistered tool name `foo` with an empty
arguments object yields the `Unknown tool: foo` error result. -/
theorem c5_unknown_tool_witness :
    handleCallTool envDefault clientOkAll "foo" (some []) =
      (⟨[ContentBlock.text ("Unknown tool: " ++ "foo")], true⟩, []) :=
  (c5_unknown_tool envDefault clientOkAll "foo" [] (by decide) (by decide) (by decide)
    (by decide) (by decide)).2

/-- C6: an invocation with no arguments object makes the pipeline throw the
fault `No arguments provided`; the top-level catch converts it into a result
with `isError = true` whose text carries that message, provided the cloud
API-key precheck passes (which it always does off cloud mode). -/
theorem c6_no_arguments :
    ∀ (env : Env) (client : FirecrawlClient) (name : String),
      (env.cloudService && jsStrFalsy (resolveApiKey env)) = false →
      toolPipeline env client name none = (.error "No arguments provided", []) ∧
      handleCallTool env client name none =
        (⟨[ContentBlock.text "Error: No arguments provided"], true⟩, []) := by
  intro env client name hkey
  have hp : toolPipeline env client name none = (.error "No arguments provided", []) := by
    unfold toolPipeline
    simp [hkey]
  refine ⟨hp, ?_⟩
  unfold handleCallTool
  rw [hp]
  have ht : trimResponseText "Error: No arguments provided" =
      "Error: No arguments provided" := by decide
  simp [ht]

/-- C6 witness: in the default deployment, a `scrape_page` call with absent
arguments produces the thrown-and-caught `No arguments provided` error result. -/
theorem c6_no_arguments_witness :
    toolPipeline envDefault clientOkAll "scrape_page" none =
      (.error "No arguments provided", []) ∧
    handleCallTool envDefault clientOkAll "scrape_page" none =
      (⟨[ContentBlock.text "Error: No arguments provided"], true⟩, []) :=
  c6_no_arguments envDefault clientOkAll "scrape_page" (by decide)

/-- C8: listing tools returns exactly the four declared tools in declaration
order, each with a non-empty description, and with required parameter lists
`[url]`, `[urls]`, `[urls, prompt]`, `[urls, schema]` respectively. -/
theorem c8_list_tools :
    listToolsRequestHandler.map ToolDef.name =
      ["scrape_page", "batch_scrape", "extract_data", "extract_with_schema"] ∧
    listToolsRequestHandler.all (fun t => !t.description.isEmpty) = true ∧
    listToolsRequestHandler.map (fun t => t.inputSchema.required) =
      [["url"], ["urls"], ["urls", "prompt"], ["urls", "schema"]] := by
  refine ⟨by decide, by decide, by decide⟩

/-- C7: `withRetry` retries only on errors whose message contains
`rate limit` or `429` and only while fewer than `maxAttempts` attempts were
made, waiting `min(initialDelay * backoffFactor ^ (attempt - 1), maxDelay)`
before each retry; any other error, or exhaustion, rethrows immediately with
no wait; the defaults are 3 attempts, 1000 ms, 10000 ms cap, factor 2; and
neither the scrape nor the extract code paths invoke the helper — a
rate-limit error in `scrape_page` still produces exactly one scrape
attempt, and a rate-limit error in `extract_data` or `extract_with_schema`
still produces exactly one extract attempt. -/
theorem c7_with_retry_policy :
    (∀ (T : Type) (cfg : RetryConfig) (op : Nat → Except String T) (attempt : Nat) (e : String),
      op attempt = .error e → isRateLimitMsg e = false →
      withRetry cfg op attempt = (.error e, [])) ∧
    (∀ (T : Type) (cfg : RetryConfig) (op : Nat → Except String T) (attempt : Nat) (e : String),
      op attempt = .error e → cfg.maxAttempts ≤ attempt →
      withRetry cfg op attempt = (.error e, [])) ∧
    (∀ (T : Type) (cfg : RetryConfig) (op : Nat → Except String T) (attempt : Nat) (e : String),
      op attempt = .error e → isRateLimitMsg e = true → attempt < cfg.maxAttempts →
      withRetry cfg op attempt =
        ((withRetry cfg op (attempt + 1)).1,
         min (cfg.initialDelay * cfg.backoffFactor ^ (attempt - 1)) cfg.maxDelay ::
           (withRetry cfg op (attempt + 1)).2)) ∧
    retryConfigOf none none none none = ⟨3, 1000, 10000, 2⟩ ∧
    (∀ (env : Env) (client : FirecrawlClient) (a : JObj) (u : String) (e : String),
      (env.cloudService && jsStrFalsy (resolveApiKey env)) = false →
      jLookup a "url" = some (JVal.str u) →
      client.scrape (JVal.str u) (jOnlyMainContent a) = .error e →
      isRateLimitMsg e = true →
      (handleCallTool env client "scrape_page" (some a)).2 =
        [Event.scrapeCall (JVal.str u) (jOnlyMainContent a)]) ∧
    (∀ (env : Env) (client : FirecrawlClient) (a : JObj) (urls : List JVal) (e : String),
      (env.cloudService && jsStrFalsy (resolveApiKey env)) = false →
      jLookup a "urls" = some (JVal.arr urls) → urls ≠ [] →
      jsTruthyOpt (jLookup a "prompt") = true →
      client.extract ⟨urls, jLookup a "prompt", none, jsOrFalse (jLookup a "enableWebSearch")⟩ =
        .error e →
      isRateLimitMsg e = true →
      (handleCallTool env client "extract_data" (some a)).2 =
        [Event.extractCall
          ⟨urls, jLookup a "prompt", none, jsOrFalse (jLookup a "enableWebSearch")⟩]) ∧
    (∀ (env : Env) (client : FirecrawlClient) (a : JObj) (urls : List JVal) (e : String),
      (env.cloudService && jsStrFalsy (resolveApiKey env)) = false →
      jLookup a "urls" = some (JVal.arr urls) → urls ≠ [] →
      jsTruthyOpt (jLookup a "schema") = true →
      client.extract
          ⟨urls, jLookup a "prompt", jLookup a "schema", jsOrFalse (jLookup a "enableWebSearch")⟩ =
        .error e →
      isRateLimitMsg e = true →
      (handleCallTool env client "extract_with_schema" (some a)).2 =
        [Event.extractCall
          ⟨urls, jLookup a "prompt", jLookup a "schema",
           jsOrFalse (jLookup a "enableWebSearch")⟩]) := by
  refine ⟨?_, ?_, ?_, rfl, ?_, ?_, ?_⟩
  · intro T cfg op attempt e hop hrate
    unfold withRetry
    rw [hop]
    simp [hrate]
  · intro T cfg op attempt e hop hmax
    unfold withRetry
    rw [hop]
    have : ¬(isRateLimitMsg e = true ∧ attempt < cfg.maxAttempts) := by
      rintro ⟨h1, h2⟩
      omega
    simp [this]
  · intro T cfg op attempt e hop hrate hlt
    conv_lhs => rw [withRetry]
    rw [hop]
    simp [hrate, hlt]
  · intro env client a u e hkey hurl hscrape hrate
    unfold handleCallTool toolPipeline dispatch
    simp [hkey, hurl, hscrape]
  · intro env client a urls e hkey hurls hne hprompt hextract hrate
    exact handle_extract_data_trace env client a urls hkey hurls hne hprompt
  · intro env client a urls e hkey hurls hne hschema hextract hrate
    exact handle_extract_schema_trace env client a urls hkey hurls hne hschema

/-- C7 witness: a non-rate-limit error at attempt 1 under the default retry
configuration is rethrown at once with no backoff waits, and a client whose
extract throws a rate-limit error still causes exactly one extract attempt
in `extract_data` and in `extract_with_schema` — no retry happens. -/
theorem c7_with_retry_policy_witness :
    withRetry (retryConfigOf none none none none)
      (fun _ => (Except.error "network down" : Except String Nat)) 1 =
      (.error "network down", []) ∧
    (handleCallTool envDefault clientRateLimited "extract_data"
        (some [("urls", JVal.arr [JVal.str "https://a.example"]),
               ("prompt", JVal.str "get the title")])).2 =
      [Event.extractCall
        ⟨[JVal.str "https://a.example"],
         jLookup [("urls", JVal.arr [JVal.str "https://a.example"]),
                  ("prompt", JVal.str "get the title")] "prompt",
         none,
         jsOrFalse (jLookup [("urls", JVal.arr [JVal.str "https://a.example"]),
                             ("prompt", JVal.str "get the title")] "enableWebSearch")⟩] ∧
    (handleCallTool envDefault clientRateLimited "extract_with_schema"
        (some [("urls", JVal.arr [JVal.str "https://a.example"]),
               ("schema", JVal.obj [])])).2 =
      [Event.extractCall
        ⟨[JVal.str "https://a.example"],
         jLookup [("urls", JVal.arr [JVal.str "https://a.example"]),
                  ("schema", JVal.obj [])] "prompt",
         jLookup [("urls", JVal.arr [JVal.str "https://a.example"]),
                  ("schema", JVal.obj [])] "schema",
         jsOrFalse (jLookup [("urls", JVal.arr [JVal.str "https://a.example"]),
                             ("schema", JVal.obj [])] "enableWebSearch")⟩] :=
  ⟨c7_with_retry_policy.1 Nat (retryConfigOf none none none none)
    (fun _ => .error "network down") 1 "network down" rfl (by decide),
   c7_with_retry_policy.2.2.2.2.2.1 envDefault clientRateLimited
    [("urls", JVal.arr [JVal.str "https://a.example"]), ("prompt", JVal.str "get the title")]
    [JVal.str "https://a.example"] "rate limit exceeded"
    (by decide) rfl (List.cons_ne_nil _ _) (by decide) rfl (by decide),
   c7_with_retry_policy.2.2.2.2.2.2 envDefault clientRateLimited
    [("urls", JVal.arr [JVal.str "https://a.example"]), ("schema", JVal.obj [])]
    [JVal.str "https://a.example"] "rate limit exceeded"
    (by decide) rfl (List.cons_ne_nil _ _) (by decide) rfl (by decide)⟩

/-- C9: an `/mcp` request with a session identifier registered in the session
map is routed to that transport; a request with no (or empty) session
identifier that is a POST carrying an `initialize` body creates and registers
a transport under a fresh identifier; every other request — unknown session
identifier, or no identifier without an initialize POST — is rejected with
HTTP 400 and JSON-RPC code -32000, never reaching the dispatcher. -/
theorem c9_session_routing :
    ∀ (sessions : List String) (fresh : String) (r : McpRequest),
      (∀ sid, r.sessionId = some sid → sid.isEmpty = false → sessions.contains sid = true →
        handleMcpRequest sessions fresh r = (.routedTo sid, sessions)) ∧
      (sessionHeaderTruthy r = false → r.methodIsPost = true → r.bodyIsObject = true →
        r.bodyMethod = some "initialize" →
        handleMcpRequest sessions fresh r = (.initialized fresh, fresh :: sessions) ∧
        fresh ∈ fresh :: sessions) ∧
      (∀ sid, r.sessionId = some sid → sid.isEmpty = false → sessions.contains sid = false →
        handleMcpRequest sessions fresh r = (.rejected 400 (-32000), sessions)) ∧
      (sessionHeaderTruthy r = false →
        ¬(r.methodIsPost = true ∧ r.bodyIsObject = true ∧ r.bodyMethod = some "initialize") →
        handleMcpRequest sessions fresh r = (.rejected 400 (-32000), sessions)) := by
  intro sessions fresh r
  refine ⟨?_, ?_, ?_, ?_⟩
  · intro sid hsid hne hmem
    unfold handleMcpRequest sessionHeaderTruthy
    rw [hsid]
    simp [hne]
    simpa using hmem
  · intro htr hpost hobj hinit
    unfold handleMcpRequest
    rw [htr, hpost, hobj, hinit]
    exact ⟨rfl, List.mem_cons_self fresh sessions⟩
  · intro sid hsid hne hmem
    unfold handleMcpRequest sessionHeaderTruthy
    rw [hsid]
    simp [hne]
    simpa using hmem
  · intro htr hrest
    unfold handleMcpRequest
    rw [htr]
    rcases hpost : r.methodIsPost with _ | _
    · simp
    · rcases hobj : r.bodyIsObject with _ | _
      · simp
      · rcases hinit : r.bodyMethod == some "initialize" with _ | _
        · simp [hinit]
        · exact absurd ⟨hpost, hobj, by simpa using hinit⟩ hrest

/-- C9 witness: a request carrying the registered session identifier `sess-1`
is routed to its transport; the same request with unknown identifier
`sess-2` is rejected with 400 and -32000. -/
theorem c9_session_routing_witness :
    handleMcpRequest ["sess-1"] "fresh-id"
      ⟨some "sess-1", true, true, some "tools/call"⟩ = (.routedTo "sess-1", ["sess-1"]) ∧
    handleMcpRequest ["sess-1"] "fresh-id"
      ⟨some "sess-2", true, true, some "tools/call"⟩ =
      (.rejected 400 (-32000), ["sess-1"]) :=
  ⟨(c9_session_routing ["sess-1"] "fresh-id" ⟨some "sess-1", true, true, some "tools/call"⟩).1
      "sess-1" rfl (by decide) (by decide),
   (c9_session_routing ["sess-1"] "fresh-id" ⟨some "sess-2", true, true, some "tools/call"⟩).2.2.1
      "sess-2" rfl (by decide) (by decide)⟩

/-- C1 counterexample: `batch_scrape` invoked with 11 URLs is not rejected —
no fault naming a limit is raised; the call completes with `isError = false`
after attempting a scrape of every one of the 11 URLs. -/
theorem c1_counterexample :
    urls11.length = 11 ∧
    (handleCallTool envDefault clientOkAll "batch_scrape"
        (some [("urls", JVal.arr urls11)])).1.isError = false ∧
    ((handleCallTool envDefault clientOkAll "batch_scrape"
        (some [("urls", JVal.arr urls11)])).2.filter Event.isScrape).length = 11 :=
  ⟨by decide, by decide, by decide⟩

/-- C1 amended: the dispatcher enforces no URL-count ceiling.  The only
guards are that `urls` is a non-empty array (plus prompt or schema
presence); a `batch_scrape` with more than 10 URLs scrapes every URL and
returns `isError = false`, an `extract_data` with more than 5 URLs and an
`extract_with_schema` with more than 10 URLs each proceed to the single
`client.extract` call instead of faulting. -/
theorem c1_no_ceilings :
    (∀ (env : Env) (client : FirecrawlClient) (a : JObj) (urls : List JVal),
      (env.cloudService && jsStrFalsy (resolveApiKey env)) = false →
      jLookup a "urls" = some (JVal.arr urls) → 10 < urls.length →
      (handleCallTool env client "batch_scrape" (some a)).1.isError = false ∧
      (handleCallTool env client "batch_scrape" (some a)).2 =
        batchTrace (jOnlyMainContent a) urls) ∧
    (∀ (env : Env) (client : FirecrawlClient) (a : JObj) (urls : List JVal),
      (env.cloudService && jsStrFalsy (resolveApiKey env)) = false →
      jLookup a "urls" = some (JVal.arr urls) → 5 < urls.length →
      jsTruthyOpt (jLookup a "prompt") = true →
      (handleCallTool env client "extract_data" (some a)).2 =
        [Event.extractCall ⟨urls, jLookup a "prompt", none, jsOrFalse (jLookup a "enableWebSearch")⟩]) ∧
    (∀ (env : Env) (client : FirecrawlClient) (a : JObj) (urls : List JVal),
      (env.cloudService && jsStrFalsy (resolveApiKey env)) = false →
      jLookup a "urls" = some (JVal.arr urls) → 10 < urls.length →
      jsTruthyOpt (jLookup a "schema") = true →
      (handleCallTool env client "extract_with_schema" (some a)).2 =
        [Event.extractCall
          ⟨urls, jLookup a "prompt", jLookup a "schema", jsOrFalse (jLookup a "enableWebSearch")⟩]) := by
  refine ⟨?_, ?_, ?_⟩
  · intro env client a urls hkey hurls hlen
    have hne : urls ≠ [] := by
      intro hnil
      rw [hnil] at hlen
      simp at hlen
    rw [handle_batch_eq env client a urls hkey hurls hne]
    exact ⟨rfl, rfl⟩
  · intro env client a urls hkey hurls hlen hprompt
    have hne : urls ≠ [] := by
      intro hnil
      rw [hnil] at hlen
      simp at hlen
    exact handle_extract_data_trace env client a urls hkey hurls hne hprompt
  · intro env client a urls hkey hurls hlen hschema
    have hne : urls ≠ [] := by
      intro hnil
      rw [hnil] at hlen
      simp at hlen
    exact handle_extract_schema_trace env client a urls hkey hurls hne hschema

/-- C1 amended witness: the 11-URL batch of the counterexample input is
processed in full — its trace is the per-URL scrape/delay trace. -/
theorem c1_no_ceilings_witness :
    (handleCallTool envDefault clientOkAll "batch_scrape"
        (some [("urls", JVal.arr urls11)])).1.isError = false ∧
    (handleCallTool envDefault clientOkAll "batch_scrape"
        (some [("urls", JVal.arr urls11)])).2 =
      batchTrace (jOnlyMainContent [("urls", JVal.arr urls11)]) urls11 :=
  c1_no_ceilings.1 envDefault clientOkAll [("urls", JVal.arr urls11)] urls11
    (by decide) rfl (by decide)

/-- C2 counterexample: a batch containing the invalid URL `ftp://x` next to a
valid one is not rejected wholesale — both URLs are processed (a scrape is
attempted for each member, in order), the call returns `isError = false`,
and the invalid URL only shows up as a per-URL failure record. -/
theorem c2_counterexample :
    (handleCallTool envDefault clientFtpFails "batch_scrape"
        (some [("urls", JVal.arr [JVal.str "https://ok.example", JVal.str "ftp://x"])])).1.isError
      = false ∧
    (handleCallTool envDefault clientFtpFails "batch_scrape"
        (some [("urls", JVal.arr [JVal.str "https://ok.example", JVal.str "ftp://x"])])).2 =
      [Event.scrapeCall (JVal.str "https://ok.example") true, Event.delayEv 200,
       Event.scrapeCall (JVal.str "ftp://x") true, Event.delayEv 200] ∧
    (batchLoop clientFtpFails true [JVal.str "https://ok.example", JVal.str "ftp://x"]).1.map
      BatchRecord.success = [true, false] :=
  ⟨by decide, rfl, rfl⟩

/-- C2 amended: `batch_scrape` performs no URL validation at all.  Every
member of a non-empty `urls` array is processed in input order, whatever its
scheme; a member whose scrape throws yields a `success = false` record
carrying that error, the batch continues, and the overall result still has
`isError = false`. -/
theorem c2_no_url_validation :
    ∀ (env : Env) (client : FirecrawlClient) (a : JObj) (urls : List JVal),
      (env.cloudService && jsStrFalsy (resolveApiKey env)) = false →
      jLookup a "urls" = some (JVal.arr urls) → urls ≠ [] →
      (handleCallTool env client "batch_scrape" (some a)).1.isError = false ∧
      (handleCallTool env client "batch_scrape" (some a)).2 =
        batchTrace (jOnlyMainContent a) urls ∧
      (∀ u e, u ∈ urls → client.scrape u (jOnlyMainContent a) = .error e →
        recordFor client (jOnlyMainContent a) u = ⟨u, false, none, some e⟩) := by
  intro env client a urls hkey hurls hne
  rw [handle_batch_eq env client a urls hkey hurls hne]
  refine ⟨rfl, rfl, ?_⟩
  intro u e hu herr
  unfold recordFor
  rw [herr]

/-- C2 amended witness: the mixed valid-and-`ftp://x` batch is fully
processed and returns `isError = false`. -/
theorem c2_no_url_validation_witness :
    (handleCallTool envDefault clientFtpFails "batch_scrape"
        (some [("urls", JVal.arr [JVal.str "https://ok.example", JVal.str "ftp://x"])])).1.isError
      = false ∧
    (handleCallTool envDefault clientFtpFails "batch_scrape"
        (some [("urls", JVal.arr [JVal.str "https://ok.example", JVal.str "ftp://x"])])).2 =
      batchTrace
        (jOnlyMainContent
          [("urls", JVal.arr [JVal.str "https://ok.example", JVal.str "ftp://x"])])
        [JVal.str "https://ok.example", JVal.str "ftp://x"] :=
  ⟨(c2_no_url_validation envDefault clientFtpFails
      [("urls", JVal.arr [JVal.str "https://ok.example", JVal.str "ftp://x"])]
      [JVal.str "https://ok.example", JVal.str "ftp://x"] (by decide) rfl
      (List.cons_ne_nil _ _)).1,
   (c2_no_url_validation envDefault clientFtpFails
      [("urls", JVal.arr [JVal.str "https://ok.example", JVal.str "ftp://x"])]
      [JVal.str "https://ok.example", JVal.str "ftp://x"] (by decide) rfl
      (List.cons_ne_nil _ _)).2.1⟩

/-- C4 counterexample: the inter-request delay of `batch_scrape` is the fixed
literal 200 ms after every URL — not a value drawn fresh per iteration from
the configured batch-delay bounds (whose documented defaults are
2000 to 5000 ms; 200 lies below that range, and no configuration reaches the
loop at all). -/
theorem c4_counterexample :
    ((handleCallTool envDefault clientOkAll "batch_scrape"
        (some [("urls", JVal.arr [JVal.str "https://a.example", JVal.str "https://b.example"])])).2.filter
      Event.isDelay) = [Event.delayEv 200, Event.delayEv 200] ∧
    200 < 2000 :=
  ⟨rfl, by decide⟩

/-- C4 amended: a guard-passing `batch_scrape` processes its URLs strictly
sequentially in input order — one scrape attempt then a fixed 200 ms delay
per URL (not a randomized configured delay) — collects exactly one record
per URL in the same order, a failing URL never aborts the batch, and its
record carries its own error message. -/
theorem c4_sequential_fixed_delay :
    ∀ (env : Env) (client : FirecrawlClient) (a : JObj) (urls : List JVal),
      (env.cloudService && jsStrFalsy (resolveApiKey env)) = false →
      jLookup a "urls" = some (JVal.arr urls) → urls ≠ [] →
      handleCallTool env client "batch_scrape" (some a) =
        (⟨[ContentBlock.text (jsonStringify 0
              (JVal.arr ((urls.map (recordFor client (jOnlyMainContent a))).map recordToJVal)))],
          false⟩,
         batchTrace (jOnlyMainContent a) urls) ∧
      (urls.map (recordFor client (jOnlyMainContent a))).map BatchRecord.url = urls ∧
      (∀ u e, client.scrape u (jOnlyMainContent a) = .error e →
        recordFor client (jOnlyMainContent a) u = ⟨u, false, none, some e⟩) := by
  intro env client a urls hkey hurls hne
  refine ⟨handle_batch_eq env client a urls hkey hurls hne, ?_, ?_⟩
  · have hmap : ∀ l : List JVal,
        (l.map (recordFor client (jOnlyMainContent a))).map BatchRecord.url = l := by
      intro l
      induction l with
      | nil => rfl
      | cons x xs ih => simp [recordFor_url, ih]
    exact hmap urls
  · intro u e herr
    unfold recordFor
    rw [herr]

/-- C4 amended witness: the two-URL batch of the counterexample input yields
the full sequential envelope-and-trace equality. -/
theorem c4_sequential_fixed_delay_witness :
    handleCallTool envDefault clientOkAll "batch_scrape"
        (some [("urls", JVal.arr [JVal.str "https://a.example", JVal.str "https://b.example"])]) =
      (⟨[ContentBlock.text (jsonStringify 0
            (JVal.arr (([JVal.str "https://a.example", JVal.str "https://b.example"].map
              (recordFor clientOkAll
                (jOnlyMainContent
                  [("urls",
                    JVal.arr [JVal.str "https://a.example", JVal.str "https://b.example"])]))).map
              recordToJVal)))],
        false⟩,
       batchTrace
         (jOnlyMainContent
           [("urls", JVal.arr [JVal.str "https://a.example", JVal.str "https://b.example"])])
         [JVal.str "https://a.example", JVal.str "https://b.example"]) :=
  (c4_sequential_fixed_delay envDefault clientOkAll
    [("urls", JVal.arr [JVal.str "https://a.example", JVal.str "https://b.example"])]
    [JVal.str "https://a.example", JVal.str "https://b.example"] (by decide) rfl
    (List.cons_ne_nil _ _)).1

/-- C10: a guard-passing `batch_scrape` returns `isError = false`
unconditionally — in particular even when every individual scrape throws;
the failures surface only as `success = false` records inside the serialized
result, so `isError` cannot distinguish a fully failed batch from a fully
successful one. -/
theorem c10_batch_isError_false :
    ∀ (env : Env) (client : FirecrawlClient) (a : JObj) (urls : List JVal),
      (env.cloudService && jsStrFalsy (resolveApiKey env)) = false →
      jLookup a "urls" = some (JVal.arr urls) → urls ≠ [] →
      (handleCallTool env client "batch_scrape" (some a)).1.isError = false ∧
      ((∀ u, u ∈ urls → ∃ e, client.scrape u (jOnlyMainContent a) = .error e) →
        ∀ r, r ∈ (batchLoop client (jOnlyMainContent a) urls).1 → r.success = false) := by
  intro env client a urls hkey hurls hne
  refine ⟨by rw [handle_batch_eq env client a urls hkey hurls hne], ?_⟩
  intro hall r hr
  rw [batchLoop_records client (jOnlyMainContent a) urls] at hr
  obtain ⟨u, hu, hru⟩ := List.mem_map.mp hr
  obtain ⟨e, he⟩ := hall u hu
  rw [← hru]
  unfold recordFor
  rw [he]

/-- C10 witness: a two-URL batch whose every scrape throws still returns
`isError = false`, while both collected records have `success = false`. -/
theorem c10_batch_isError_false_witness :
    (handleCallTool envDefault clientFailAll "batch_scrape"
        (some [("urls", JVal.arr [JVal.str "https://a.example", JVal.str "https://b.example"])])).1.isError
      = false ∧
    (batchLoop clientFailAll true
        [JVal.str "https://a.example", JVal.str "https://b.example"]).1.map BatchRecord.success =
      [false, false] :=
  ⟨(c10_batch_isError_false envDefault clientFailAll
      [("urls", JVal.arr [JVal.str "https://a.example", JVal.str "https://b.example"])]
      [JVal.str "https://a.example", JVal.str "https://b.example"] (by decide) rfl
    (List.cons_ne_nil _ _)).1,
   by decide⟩

end FirecrawlLite
